import Mathlib

/-!
Shallow embedding of the `CustomSummation` / `CustomSummation::Evaluator`
adapter from `src/openmmapi/src/CustomSummation.cpp` (OpenMM Laboratory
plugin).  Every definition below is translated from that source file;
`double` is modelled by `ℚ` (no claim depends on floating-point rounding),
C++ `int` indices by `Int`, parameter names by `String`.  The opaque
backend physics (`Context::getState(Energy/Forces)`) is modelled by
abstract functions `energyOf`/`forcesOf` taken as parameters, and the
states carry instrumentation counters (`energyQueries`, `forceQueries`,
`positionWrites`) recording each backend interaction, matching the
"instrumentable recomputation counter in a test double" of the spec.
-/

namespace CustomSummationModel

/-- A 3-vector of coordinates, modelling `OpenMM::Vec3`. -/
structure Vec3 where
  x : ℚ
  y : ℚ
  z : ℚ
deriving DecidableEq, Repr

/-- The zero vector `Vec3(0, 0, 0)`. -/
def Vec3.zero : Vec3 := ⟨0, 0, 0⟩

/-- Component access `v[c]` for `c ∈ {0,1,2}`, as in `positions[i/3][i%3]`. -/
def Vec3.comp (v : Vec3) (c : Nat) : ℚ :=
  if c = 0 then v.x else if c = 1 then v.y else v.z

/-- Component assignment `v[c] = a`. -/
def Vec3.setComp (v : Vec3) (c : Nat) (a : ℚ) : Vec3 :=
  if c = 0 then { v with x := a } else if c = 1 then { v with y := a } else { v with z := a }

/-- Read component `c` of entry `j` of a position list (out of range reads
give the zero vector; in the source all accesses are in range). -/
def compAt (ps : List Vec3) (j c : Nat) : ℚ :=
  (ps.getD j Vec3.zero).comp c

/-- In-place update of entry `j` of a position list (no-op out of range,
matching that the source only performs in-range writes). -/
def modifyAt (ps : List Vec3) (j : Nat) (f : Vec3 → Vec3) : List Vec3 :=
  ps.set j (f (ps.getD j Vec3.zero))

/-- The write loop of `Evaluator::setPositions`:
`for (i = 0; i < numArgs; i++) positions[i/3][i%3] = arguments[i];`
starting at loop index `i`. -/
def writeArgsAux (ps : List Vec3) (args : List ℚ) (i : Nat) : List Vec3 :=
  match args with
  | [] => ps
  | a :: rest => writeArgsAux (modifyAt ps (i / 3) (fun v => v.setComp (i % 3) a)) rest (i + 1)

/-- The write loop of `Evaluator::setPositions` from index 0. -/
def writeArgs (ps : List Vec3) (args : List ℚ) : List Vec3 :=
  writeArgsAux ps args 0

/-- Model of `std::equal(a.begin(), a.end(), b.begin())`: compares the first
`a.size()` elements of `b` with `a`. -/
def stdEqual (a b : List ℚ) : Bool :=
  a = b.take a.length

/-- Lookup of a named parameter in an association list, modelling
`Context::getParameter` (which throws on an unknown name, modelled by
`none`). -/
def lookupParam (l : List (String × ℚ)) (n : String) : Option ℚ :=
  (l.find? (fun p => p.1 = n)).map Prod.snd

/-- Write of a named parameter, modelling `Context::setParameter`
(unknown names leave the store unchanged; the source only ever writes
declared names). -/
def updateParam (l : List (String × ℚ)) (n : String) (v : ℚ) : List (String × ℚ) :=
  l.map (fun p => if p.1 = n then (n, v) else p)

/-- The data of an `OpenMM::CustomCompoundBondForce` as used by the
adapter: particle count per bond, expression text, global (overall)
parameters with their default values, per-bond (per-term) parameter
names, and the list of bonds (terms), each a particle list plus a
parameter-value list. -/
structure BondForce where
  numParticlesPerBond : Nat
  expression : String
  globalParameters : List (String × ℚ)
  perBondParameterNames : List String
  bonds : List (List Nat × List ℚ)
deriving DecidableEq, Repr

/-- The observable state of the backend `OpenMM::Context`: the positions
last pushed, the live global-parameter store, and the snapshot of the
bond data the context currently computes with (refreshed by
`updateParametersInContext` / `reinitialize`). -/
structure Context where
  positions : List Vec3
  parameters : List (String × ℚ)
  bondSnapshot : List (List Nat × List ℚ)
deriving DecidableEq, Repr

/-- The `CustomSummation::Evaluator` state (CustomSummation.cpp lines 37-118),
plus instrumentation counters for backend interactions. -/
structure Evaluator where
  numArgs : Nat
  positions : List Vec3
  latestArguments : List ℚ
  derivatives : List ℚ
  value : ℚ
  valueIsDirty : Bool
  derivativesAreDirty : Bool
  contextIsUnchanged : Bool
  ctx : Context
  energyQueries : Nat
  forceQueries : Nat
  positionWrites : Nat
deriving DecidableEq, Repr

/-- Constructor `Evaluator::Evaluator` (lines 37-56): positions sized to the particle
count and zero-filled, `latestArguments` and `derivatives` resized to
`numArgs` (value-initialised to 0), all three flags set true; the fresh
context holds the force's defaults as live parameters and its bonds as
snapshot.  (`value` is an uninitialised `double` in the source; it is
never read while `valueIsDirty`, we use 0.) -/
def Evaluator.init (numArgs : Nat) (force : BondForce) : Evaluator :=
  let numParticles := force.numParticlesPerBond
  { numArgs := numArgs
    positions := List.replicate numParticles Vec3.zero
    latestArguments := List.replicate numArgs 0
    derivatives := List.replicate numArgs 0
    value := 0
    valueIsDirty := true
    derivativesAreDirty := true
    contextIsUnchanged := true
    ctx := { positions := List.replicate numParticles Vec3.zero
             parameters := force.globalParameters
             bondSnapshot := force.bonds }
    energyQueries := 0
    forceQueries := 0
    positionWrites := 0 }

/-- Model of `Evaluator::setPositions` (lines 62-70): early return when the
incoming arguments compare equal (std::equal over the incoming range) to
`latestArguments` and `contextIsUnchanged`; otherwise write the first
`numArgs` arguments into the position components, push to the context,
record the arguments, and set all three flags. -/
def Evaluator.setPositions (e : Evaluator) (args : List ℚ) : Evaluator :=
  if stdEqual args e.latestArguments && e.contextIsUnchanged then e
  else
    let ps := writeArgs e.positions (args.take e.numArgs)
    { e with
      positions := ps
      ctx := { e.ctx with positions := ps }
      latestArguments := args
      valueIsDirty := true
      derivativesAreDirty := true
      contextIsUnchanged := true
      positionWrites := e.positionWrites + 1 }

/-- Model of `Evaluator::evaluate` (lines 72-79): set positions; if the value
cache is dirty, query the backend potential energy (counted by
`energyQueries`), cache it and clear the flag; return the cached value. -/
def Evaluator.evaluate (energyOf : Context → ℚ) (e : Evaluator) (args : List ℚ) :
    ℚ × Evaluator :=
  let e := e.setPositions args
  if e.valueIsDirty then
    let v := energyOf e.ctx
    (v, { e with value := v, valueIsDirty := false, energyQueries := e.energyQueries + 1 })
  else
    (e.value, e)

/-- The loop of `Evaluator::evaluateDerivatives`:
`derivatives[i] = -forces[i/3][i%3]` for `i = 0, …, numArgs-1`. -/
def derivsFrom (fs : List Vec3) (numArgs : Nat) : List ℚ :=
  (List.range numArgs).map (fun i => -((fs.getD (i / 3) Vec3.zero).comp (i % 3)))

/-- Model of `Evaluator::evaluateDerivatives` (lines 81-90): set positions; if the
derivative cache is dirty, query the backend forces (counted by
`forceQueries`), negate component `i%3` of particle `i/3` into entry `i`,
cache and clear the flag; return the cached vector. -/
def Evaluator.evaluateDerivatives (forcesOf : Context → List Vec3) (e : Evaluator)
    (args : List ℚ) : List ℚ × Evaluator :=
  let e := e.setPositions args
  if e.derivativesAreDirty then
    let ds := derivsFrom (forcesOf e.ctx) e.numArgs
    (ds, { e with derivatives := ds, derivativesAreDirty := false,
                  forceQueries := e.forceQueries + 1 })
  else
    (e.derivatives, e)

/-- Model of `Evaluator::update` (lines 92-95): `updateParametersInContext`
refreshes the bond snapshot in the live context and marks the context
changed. -/
def Evaluator.update (e : Evaluator) (force : BondForce) : Evaluator :=
  { e with
    ctx := { e.ctx with bondSnapshot := force.bonds }
    contextIsUnchanged := false }

/-- Model of `Evaluator::reset` (lines 97-100): `Context::reinitialize()` rebuilds
the context from the current force definition, discarding state:
positions return to zero, live parameters return to the force's declared
defaults, and the bond snapshot is re-read; the context is marked
changed. -/
def Evaluator.reset (e : Evaluator) (force : BondForce) : Evaluator :=
  { e with
    ctx := { positions := List.replicate force.numParticlesPerBond Vec3.zero
             parameters := force.globalParameters
             bondSnapshot := force.bonds }
    contextIsUnchanged := false }

/-- Model of `Evaluator::getParameter` (lines 102-104): read the live value from
the context (`none` models the context's unknown-name exception). -/
def Evaluator.getParameter (e : Evaluator) (name : String) : Option ℚ :=
  lookupParam e.ctx.parameters name

/-- Model of `Evaluator::setParameter` (lines 106-109): write the live value in
the context and mark the context changed. -/
def Evaluator.setParameter (e : Evaluator) (name : String) (v : ℚ) : Evaluator :=
  { e with
    ctx := { e.ctx with parameters := updateParam e.ctx.parameters name v }
    contextIsUnchanged := false }

/-- Error kinds raised (or, for `undefinedWhichRead`, the undefined
behaviour reached) by the `CustomSummation` entry points. -/
inductive SumError where
  | indexOutOfRange
  | invalidDerivativeOrder
  | noSuchParameter
  /-- Models the control path of `CustomSummation::evaluateDerivative`
  (array form) in which no entry of `derivOrder` equals 1, so the local
  `int which` is read uninitialised and `derivatives[which]` is an
  indeterminate access: undefined behaviour, not an exception. -/
  | undefinedWhichRead
deriving DecidableEq, Repr

/-- The `CustomSummation` state (CustomSummation.cpp lines 120-250). -/
structure CustomSummation where
  numArgs : Nat
  particles : List Nat
  force : BondForce
  evaluator : Evaluator
deriving DecidableEq, Repr

/-- Constructor `CustomSummation::CustomSummation` (lines 120-138):
`numParticles = (numArgs + 2) / 3`, particle indices `0 … numParticles-1`,
a fresh `CustomCompoundBondForce` with the given expression, global and
per-bond parameters and no bonds, and a fresh `Evaluator` around it.
(The C++ constructor receives the overall parameters as a
`std::map<string,double>`, i.e. name-sorted with unique keys; the list
here keeps the iteration order of that map.) -/
def CustomSummation.init (numArgs : Nat) (expression : String)
    (overallParameters : List (String × ℚ)) (perTermParameterNames : List String) :
    CustomSummation :=
  let numParticles := (numArgs + 2) / 3
  let force : BondForce :=
    { numParticlesPerBond := numParticles
      expression := expression
      globalParameters := overallParameters
      perBondParameterNames := perTermParameterNames
      bonds := [] }
  { numArgs := numArgs
    particles := List.range numParticles
    force := force
    evaluator := Evaluator.init numArgs force }

/-- Model of `CustomSummation::evaluate` (lines 148-150). -/
def CustomSummation.evaluate (energyOf : Context → ℚ) (s : CustomSummation)
    (args : List ℚ) : ℚ × CustomSummation :=
  let r := s.evaluator.evaluate energyOf args
  (r.1, { s with evaluator := r.2 })

/-- Model of `CustomSummation::getNumTerms` via `force->getNumBonds()`. -/
def CustomSummation.getNumTerms (s : CustomSummation) : Nat :=
  s.force.bonds.length

/-- Model of `CustomSummation::addTerm` (lines 224-228): append a bond with the
fixed particle list and the given parameters, reset the evaluator, and
return `getNumBonds() - 1`. -/
def CustomSummation.addTerm (s : CustomSummation) (params : List ℚ) :
    Nat × CustomSummation :=
  let force := { s.force with bonds := s.force.bonds ++ [(s.particles, params)] }
  (force.bonds.length - 1,
   { s with force := force, evaluator := s.evaluator.reset force })

/-- Model of `CustomSummation::getTerm` (lines 230-236): `ASSERT_INDEX` against
`getNumBonds()`, then `getBondParameters` copies the stored parameter
vector of bond `index` out (the source's fresh vector of size
`getNumPerTermParameters()` is wholly overwritten by the copy). -/
def CustomSummation.getTerm (s : CustomSummation) (index : Int) :
    Except SumError (List ℚ) :=
  if index < 0 ∨ (s.force.bonds.length : Int) ≤ index then .error .indexOutOfRange
  else .ok ((s.force.bonds.getD index.toNat ([], [])).2)

/-- Model of `CustomSummation::setTerm` (lines 238-242): `ASSERT_INDEX`, then
replace bond `index` with the fixed particle list and the new parameters
and push an incremental update into the evaluator's context. -/
def CustomSummation.setTerm (s : CustomSummation) (index : Int) (params : List ℚ) :
    Except SumError CustomSummation :=
  if index < 0 ∨ (s.force.bonds.length : Int) ≤ index then .error .indexOutOfRange
  else
    let force := { s.force with bonds := s.force.bonds.set index.toNat (s.particles, params) }
    .ok { s with force := force, evaluator := s.evaluator.update force }

/-- Model of `CustomSummation::getParameter` (lines 244-246): live value from the
evaluator's context. -/
def CustomSummation.getParameter (s : CustomSummation) (name : String) : Option ℚ :=
  s.evaluator.getParameter name

/-- Model of `CustomSummation::setParameter` (lines 248-250). -/
def CustomSummation.setParameter (s : CustomSummation) (name : String) (v : ℚ) :
    CustomSummation :=
  { s with evaluator := s.evaluator.setParameter name v }

/-- Model of `CustomSummation::getOverallParameterDefaultValue` (lines 206-209):
`ASSERT_INDEX` against the number of global parameters, then — despite
the name — the LIVE value of that parameter read back from the
evaluator's context (`.error .noSuchParameter` models the context's
unknown-name exception, unreachable in states built by the adapter). -/
def CustomSummation.getOverallParameterDefaultValue (s : CustomSummation) (index : Int) :
    Except SumError ℚ :=
  if index < 0 ∨ (s.force.globalParameters.length : Int) ≤ index then
    .error .indexOutOfRange
  else
    match s.evaluator.getParameter ((s.force.globalParameters.getD index.toNat ("", 0)).1) with
    | some v => .ok v
    | none => .error .noSuchParameter

/-- Model of `CustomSummation::evaluateDerivative(const vector<double>&, int)`
(lines 167-169): NO bounds check on `which`; the source indexes the
returned derivative vector with `operator[]`, so an out-of-range `which`
is an unchecked access (undefined behaviour), modelled by `none`. -/
def CustomSummation.evaluateDerivativeAt (forcesOf : Context → List Vec3)
    (s : CustomSummation) (args : List ℚ) (which : Int) :
    Option ℚ × CustomSummation :=
  let r := s.evaluator.evaluateDerivatives forcesOf args
  ((if 0 ≤ which then r.1.get? which.toNat else none),
   { s with evaluator := r.2 })

/-- The validation loop of `CustomSummation::evaluateDerivative`
(array form, lines 154-162): running over the entries with accumulator
`acc` (initially 0) and the local `which` (uninitialised, modelled
`none`), throw on a negative entry or when the running sum exceeds 1;
an entry equal to 1 records its index in `which`. -/
def scanDerivOrder : List Int → Nat → Int → Option Nat → Except SumError (Option Nat)
  | [], _, _, which => .ok which
  | item :: rest, i, acc, which =>
    if item < 0 ∨ 1 < acc + item then .error .invalidDerivativeOrder
    else scanDerivOrder rest (i + 1) (acc + item) (if item = 1 then some i else which)

/-- Model of `CustomSummation::evaluateDerivative(const double*, const int*)`
(lines 152-165): validate `derivOrder`, then return
`evaluateDerivatives(args)[which]`.  When no entry equals 1 the source
reads the uninitialised `which` — undefined behaviour, modelled as
`.error .undefinedWhichRead` (distinct from the thrown
`.invalidDerivativeOrder`). -/
def CustomSummation.evaluateDerivativeArr (forcesOf : Context → List Vec3)
    (s : CustomSummation) (args : List ℚ) (derivOrder : List Int) :
    Except SumError (ℚ × CustomSummation) :=
  match scanDerivOrder derivOrder 0 0 none with
  | .error e => .error e
  | .ok none => .error .undefinedWhichRead
  | .ok (some which) =>
    let r := s.evaluator.evaluateDerivatives forcesOf args
    .ok (r.1.getD which 0, { s with evaluator := r.2 })

/-- Model of `CustomSummation::clone` (lines 171-195): read back each overall
parameter's LIVE value (via `getOverallParameterDefaultValue`, which
queries the context) as the new default, copy the per-term parameter
names, construct a fresh `CustomSummation`, re-add every term from
`getTerm`, then set every overall parameter to the source's live value.
(The `Option.getD 0` models reads that cannot fail in adapter-built
states.) -/
def CustomSummation.clone (s : CustomSummation) : CustomSummation :=
  let live := fun (nm : String) => (s.evaluator.getParameter nm).getD 0
  let overallParameters := s.force.globalParameters.map (fun p => (p.1, live p.1))
  let copy := CustomSummation.init s.numArgs s.force.expression overallParameters
                s.force.perBondParameterNames
  let copy := s.force.bonds.foldl (fun c b => (c.addTerm b.2).2) copy
  let copy := s.force.globalParameters.foldl (fun c p => c.setParameter p.1 (live p.1)) copy
  copy

/-- The mutating operations of the public `CustomSummation` interface, to
state facts quantified over "every operation". -/
inductive Op where
  | addTerm (v : List ℚ)
  | setTerm (i : Int) (v : List ℚ)
  | setParameter (name : String) (v : ℚ)
  | evaluate (args : List ℚ)
  | evaluateDerivativeAt (args : List ℚ) (which : Int)
  | evaluateDerivativeArr (args : List ℚ) (derivOrder : List Int)
deriving DecidableEq, Repr

/-- The state after running one public operation (a failing operation
raises before mutating, leaving the state unchanged, as in the source
where `ASSERT_INDEX` / the validation loop precede every mutation). -/
def applyOp (energyOf : Context → ℚ) (forcesOf : Context → List Vec3)
    (s : CustomSummation) : Op → CustomSummation
  | .addTerm v => (s.addTerm v).2
  | .setTerm i v => match s.setTerm i v with
    | .ok s' => s'
    | .error _ => s
  | .setParameter name v => s.setParameter name v
  | .evaluate args => (s.evaluate energyOf args).2
  | .evaluateDerivativeAt args which => (s.evaluateDerivativeAt forcesOf args which).2
  | .evaluateDerivativeArr args derivOrder =>
    match s.evaluateDerivativeArr forcesOf args derivOrder with
    | .ok r => r.2
    | .error _ => s

/-! ### Helper lemmas about `setPositions` -/

theorem setPositions_skip (e : Evaluator) (args : List ℚ)
    (h : (stdEqual args e.latestArguments && e.contextIsUnchanged) = true) :
    e.setPositions args = e := by
  simp [Evaluator.setPositions, h]

theorem setPositions_latest_ctxUnchanged (e : Evaluator) (args : List ℚ) :
    stdEqual args (e.setPositions args).latestArguments = true ∧
      (e.setPositions args).contextIsUnchanged = true := by
  unfold Evaluator.setPositions
  split
  · next h =>
    simp only [Bool.and_eq_true] at h
    exact h
  · next h =>
    refine ⟨?_, rfl⟩
    simp [stdEqual]

theorem setPositions_idem (e : Evaluator) (args : List ℚ) :
    (e.setPositions args).setPositions args = e.setPositions args := by
  apply setPositions_skip
  have h := setPositions_latest_ctxUnchanged e args
  simp [h.1, h.2]

theorem setPositions_energyQueries (e : Evaluator) (args : List ℚ) :
    (e.setPositions args).energyQueries = e.energyQueries := by
  unfold Evaluator.setPositions
  split <;> rfl

theorem setPositions_forceQueries (e : Evaluator) (args : List ℚ) :
    (e.setPositions args).forceQueries = e.forceQueries := by
  unfold Evaluator.setPositions
  split <;> rfl

/-- After one `evaluate`, the value cache is clean and holds the value
returned, the latest arguments compare equal to the call's arguments,
the context is unchanged, and at most one energy query happened. -/
theorem evaluate_post (E : Context → ℚ) (e : Evaluator) (args : List ℚ) :
    (e.evaluate E args).2.valueIsDirty = false ∧
      (e.evaluate E args).2.value = (e.evaluate E args).1 ∧
      stdEqual args (e.evaluate E args).2.latestArguments = true ∧
      (e.evaluate E args).2.contextIsUnchanged = true ∧
      (e.evaluate E args).2.energyQueries ≤ e.energyQueries + 1 := by
  unfold Evaluator.evaluate
  have h := setPositions_latest_ctxUnchanged e args
  have hq := setPositions_energyQueries e args
  by_cases hd : (e.setPositions args).valueIsDirty
  · simp [hd, h.1, h.2, hq]
  · simp [hd, h.1, h.2, hq, Nat.le_succ]

/-- Running `evaluate` on a clean, unchanged evaluator whose latest arguments
match is a pure cache read. -/
theorem evaluate_of_clean (E : Context → ℚ) (e : Evaluator) (args : List ℚ)
    (h1 : stdEqual args e.latestArguments = true) (h2 : e.contextIsUnchanged = true)
    (h3 : e.valueIsDirty = false) :
    e.evaluate E args = (e.value, e) := by
  unfold Evaluator.evaluate
  rw [setPositions_skip e args (by simp [h1, h2])]
  simp [h3]

/-- C1, evaluator level: two successive `Evaluator::evaluate` calls with
the same arguments return the same value and increase the energy-query
count by at most one in total. -/
theorem evaluate_twice (E : Context → ℚ) (e : Evaluator) (args : List ℚ) :
    ((e.evaluate E args).2.evaluate E args).1 = (e.evaluate E args).1 ∧
      ((e.evaluate E args).2.evaluate E args).2.energyQueries ≤ e.energyQueries + 1 := by
  obtain ⟨h1, h2, h3, h4, h5⟩ := evaluate_post E e args
  have hsecond := evaluate_of_clean E (e.evaluate E args).2 args h3 h4 h1
  rw [hsecond]
  exact ⟨h2, h5⟩

end CustomSummationModel

namespace CustomSummationModel

/-- C1: for a valid argument vector of length `argCount`, `evaluate`
called twice in succession with no intervening mutation returns the
identical value both times, and the backend potential-energy query is
performed at most once across the two calls (energy-query counter grows
by at most one). -/
theorem c1_evaluate_cached (E : Context → ℚ) (s : CustomSummation) (args : List ℚ)
    (hlen : args.length = s.numArgs) :
    ((s.evaluate E args).2.evaluate E args).1 = (s.evaluate E args).1 ∧
      ((s.evaluate E args).2.evaluate E args).2.evaluator.energyQueries ≤
        s.evaluator.energyQueries + 1 := by
  have h := evaluate_twice E s.evaluator args
  simpa [CustomSummation.evaluate] using h

/-- Witness for C1 at a concrete summation and argument vector. -/
theorem c1_evaluate_cached_witness :
    ([(1 : ℚ), 2].length = (CustomSummation.init 2 "x1+y1" [] []).numArgs) ∧
      ((((CustomSummation.init 2 "x1+y1" [] []).evaluate (fun _ => 5) [(1 : ℚ), 2]).2.evaluate
          (fun _ => 5) [(1 : ℚ), 2]).1 =
        ((CustomSummation.init 2 "x1+y1" [] []).evaluate (fun _ => 5) [(1 : ℚ), 2]).1 ∧
        (((CustomSummation.init 2 "x1+y1" [] []).evaluate (fun _ => 5) [(1 : ℚ), 2]).2.evaluate
            (fun _ => 5) [(1 : ℚ), 2]).2.evaluator.energyQueries ≤
          (CustomSummation.init 2 "x1+y1" [] []).evaluator.energyQueries + 1) :=
  ⟨rfl, c1_evaluate_cached (fun _ => 5) (CustomSummation.init 2 "x1+y1" [] []) [(1 : ℚ), 2] rfl⟩

/-- C2 (amended): `setPositions` is a complete no-op exactly when the
incoming arguments compare equal (`std::equal`) to `latestArguments` and
no structural change has occurred (`contextIsUnchanged`); otherwise it
pushes the written positions into the backend context, records the
arguments, marks both caches dirty and performs one position write.  At
construction `latestArguments` is the zero vector and
`contextIsUnchanged` is already true, so a first call whose arguments are
all zero is also skipped. -/
theorem c2_setPositions_characterization (e : Evaluator) (args : List ℚ) :
    (e.setPositions args = e ↔
        (stdEqual args e.latestArguments = true ∧ e.contextIsUnchanged = true)) ∧
      ((stdEqual args e.latestArguments = true ∧ e.contextIsUnchanged = true) ∨
        ((e.setPositions args).ctx.positions = writeArgs e.positions (args.take e.numArgs) ∧
          (e.setPositions args).valueIsDirty = true ∧
          (e.setPositions args).derivativesAreDirty = true ∧
          (e.setPositions args).latestArguments = args ∧
          (e.setPositions args).positionWrites = e.positionWrites + 1)) ∧
      (∀ (n : Nat) (f : BondForce),
        (Evaluator.init n f).latestArguments = List.replicate n 0 ∧
          (Evaluator.init n f).contextIsUnchanged = true) := by
  refine ⟨?_, ?_, fun n f => ⟨rfl, rfl⟩⟩
  · constructor
    · intro h
      by_contra hc
      have hcond : (stdEqual args e.latestArguments && e.contextIsUnchanged) = false := by
        rcases Bool.eq_false_or_eq_true (stdEqual args e.latestArguments && e.contextIsUnchanged)
          with hb | hb
        · exact absurd (Bool.and_eq_true .. ▸ hb) hc
        · exact hb
      have : (e.setPositions args).positionWrites = e.positionWrites + 1 := by
        unfold Evaluator.setPositions
        simp [hcond]
      rw [h] at this
      omega
    · intro h
      exact setPositions_skip e args (by simp [h.1, h.2])
  · by_cases hcond : (stdEqual args e.latestArguments && e.contextIsUnchanged) = true
    · exact Or.inl (Bool.and_eq_true .. ▸ hcond)
    · refine Or.inr ?_
      unfold Evaluator.setPositions
      simp [hcond]

/-- Counterexample to C2 as stated: immediately after construction, when
"no positions have yet been written" to the backend context, a call with
all-zero arguments does NOT push positions — it is a complete no-op
(state unchanged, zero position writes), because `latestArguments` is
zero-initialised and `contextIsUnchanged` starts true. -/
theorem c2_counterexample :
    (CustomSummation.init 1 "x1" [] []).evaluator.setPositions [0] =
        (CustomSummation.init 1 "x1" [] []).evaluator ∧
      ((CustomSummation.init 1 "x1" [] []).evaluator.setPositions [0]).positionWrites = 0 := by
  constructor
  · apply setPositions_skip
    decide
  · rw [setPositions_skip _ _ (by decide)]
    rfl

/-- C3 (code bug): with `derivOrder = {0, 0}` (all zeros) the validation
loop of the array form of `evaluateDerivative` raises nothing; the local
`which` is read uninitialised and `derivatives[which]` is an
indeterminate access (modelled `undefinedWhichRead`), instead of the
invalid-derivative-order error the spec requires. -/
theorem c3_all_zero_order_not_rejected :
    CustomSummation.evaluateDerivativeArr (fun _ => [])
        (CustomSummation.init 2 "x1+y1" [] []) [1, 2] [0, 0] =
      .error .undefinedWhichRead ∧
    CustomSummation.evaluateDerivativeArr (fun _ => [])
        (CustomSummation.init 2 "x1+y1" [] []) [1, 2] [0, 0] ≠
      .error .invalidDerivativeOrder := by
  refine ⟨rfl, ?_⟩
  intro h
  rw [show CustomSummation.evaluateDerivativeArr (fun _ => [])
        (CustomSummation.init 2 "x1+y1" [] []) [1, 2] [0, 0] =
      .error .undefinedWhichRead from rfl] at h
  simp at h

/-- C8 (code bug): `getTerm`/`setTerm` with an out-of-range index do
raise the index-out-of-range error, but
`evaluateDerivative(arguments, which)` with `which = argCount` (outside
`[0, argCount)`) performs an unchecked vector access — no exception is
raised (the read is out of the two-entry derivative vector, modelled
`none`). -/
theorem c8_unchecked_which_read :
    (CustomSummation.init 2 "x1+y1" [] []).getTerm 0 = .error .indexOutOfRange ∧
    (CustomSummation.init 2 "x1+y1" [] []).getTerm (-1) = .error .indexOutOfRange ∧
    (CustomSummation.init 2 "x1+y1" [] []).setTerm 0 [] = .error .indexOutOfRange ∧
    ((CustomSummation.init 2 "x1+y1" [] []).evaluateDerivativeAt
        (fun _ => [⟨3, 4, 0⟩]) [1, 2] 2).1 = none ∧
    (((CustomSummation.init 2 "x1+y1" [] []).evaluator.evaluateDerivatives
        (fun _ => [⟨3, 4, 0⟩]) [1, 2]).1.length = 2) :=
  ⟨rfl, rfl, rfl, rfl, rfl⟩

/-! ### Helper lemmas for C4 -/

theorem setPositions_numArgs (e : Evaluator) (args : List ℚ) :
    (e.setPositions args).numArgs = e.numArgs := by
  unfold Evaluator.setPositions
  split <;> rfl

/-- If the derivative cache is still clean after `setPositions`, the call
was a skip: the state is unchanged and both skip conditions held. -/
theorem setPositions_of_derivClean (e : Evaluator) (args : List ℚ)
    (h : (e.setPositions args).derivativesAreDirty = false) :
    e.setPositions args = e ∧ e.contextIsUnchanged = true ∧
      stdEqual args e.latestArguments = true := by
  unfold Evaluator.setPositions at h ⊢
  split at h
  · next hc =>
    simp only [Bool.and_eq_true] at hc
    simp [hc.1, hc.2]
  · simp at h

theorem derivsFrom_length (fs : List Vec3) (n : Nat) :
    (derivsFrom fs n).length = n := by
  simp [derivsFrom]

theorem derivsFrom_getD (fs : List Vec3) (n i : Nat) (h : i < n) :
    (derivsFrom fs n).getD i 0 = -((fs.getD (i / 3) Vec3.zero).comp (i % 3)) := by
  rw [List.getD_eq_getElem _ _ (by simpa [derivsFrom_length] using h)]
  simp [derivsFrom]

/-- Cache-consistency invariant of an evaluator: whenever the derivative
cache is clean and the context unchanged, the cached vector is exactly
the negated backend forces at the context's current state.  It holds at
construction (the cache starts dirty) and is preserved by every
operation. -/
def derivCacheConsistent (F : Context → List Vec3) (e : Evaluator) : Prop :=
  e.derivativesAreDirty = false → e.contextIsUnchanged = true →
    e.derivatives = derivsFrom (F e.ctx) e.numArgs

/-- C4: `evaluateDerivatives` returns a vector of length `argCount` whose
`i`-th entry is minus backend force component `i % 3` of particle
`i / 3` (at the context holding the just-set positions); the backend
forces are queried exactly when the derivative cache is dirty after the
position update, and otherwise the cached vector is returned with no
query. -/
theorem c4_evaluateDerivatives_spec (F : Context → List Vec3) (e : Evaluator)
    (args : List ℚ) (hinv : derivCacheConsistent F e) :
    (e.evaluateDerivatives F args).1 =
        derivsFrom (F (e.evaluateDerivatives F args).2.ctx) e.numArgs ∧
      (e.evaluateDerivatives F args).1.length = e.numArgs ∧
      (∀ i, i < e.numArgs →
        (e.evaluateDerivatives F args).1.getD i 0 =
          -(((F (e.evaluateDerivatives F args).2.ctx).getD (i / 3) Vec3.zero).comp (i % 3))) ∧
      (e.evaluateDerivatives F args).2.forceQueries =
        e.forceQueries + (if (e.setPositions args).derivativesAreDirty then 1 else 0) ∧
      ((e.setPositions args).derivativesAreDirty = false →
        (e.evaluateDerivatives F args).1 = (e.setPositions args).derivatives) := by
  unfold Evaluator.evaluateDerivatives
  have hq := setPositions_forceQueries e args
  have hn := setPositions_numArgs e args
  by_cases hd : (e.setPositions args).derivativesAreDirty
  · simp only [hd, if_true]
    refine ⟨by rw [hn], by rw [derivsFrom_length, hn], ?_, by simp [hq, hd], by simp [hd]⟩
    intro i hi
    rw [hn]
    exact derivsFrom_getD _ _ _ hi
  · obtain ⟨hskip, hctx, _⟩ := setPositions_of_derivClean e args (by simpa using hd)
    have hde : e.derivativesAreDirty = false := by
      rw [hskip] at hd
      simpa using hd
    have hcache := hinv hde hctx
    rw [hskip]
    simp only [hde, Bool.false_eq_true, if_false]
    refine ⟨hcache, ?_, ?_, by simp [hde], fun _ => trivial⟩
    · rw [hcache, derivsFrom_length]
    · intro i hi
      rw [hcache]
      exact derivsFrom_getD _ _ _ hi

/-! ### Helper lemmas for C5: the position-write layout -/

theorem comp_setComp_self (v : Vec3) (c : Nat) (a : ℚ) :
    (v.setComp c a).comp c = a := by
  unfold Vec3.setComp Vec3.comp
  split_ifs <;> rfl

theorem comp_setComp_ne (v : Vec3) (c c' : Nat) (a : ℚ) (hc : c < 3) (hc' : c' < 3)
    (h : c ≠ c') : (v.setComp c a).comp c' = v.comp c' := by
  unfold Vec3.setComp Vec3.comp
  split_ifs <;> first | rfl | omega

theorem comp_zero (c : Nat) : Vec3.zero.comp c = 0 := by
  unfold Vec3.zero Vec3.comp
  split_ifs <;> rfl

theorem length_modifyAt (ps : List Vec3) (j : Nat) (f : Vec3 → Vec3) :
    (modifyAt ps j f).length = ps.length := by
  simp [modifyAt]

theorem compAt_modifyAt_self (ps : List Vec3) (j c : Nat) (f : Vec3 → Vec3)
    (h : j < ps.length) :
    compAt (modifyAt ps j f) j c = (f (ps.getD j Vec3.zero)).comp c := by
  unfold compAt modifyAt
  rw [List.getD_eq_getElem _ _ (by simpa using h), List.getElem_set_self]

theorem compAt_modifyAt_ne (ps : List Vec3) (j j' c : Nat) (f : Vec3 → Vec3)
    (h : j ≠ j') :
    compAt (modifyAt ps j f) j' c = compAt ps j' c := by
  unfold compAt modifyAt
  simp [List.getD_eq_getElem?_getD, List.getElem?_set_ne h]

theorem compAt_of_length_le (ps : List Vec3) (j c : Nat) (h : ps.length ≤ j) :
    compAt ps j c = Vec3.zero.comp c := by
  unfold compAt
  simp [List.getD_eq_getElem?_getD, List.getElem?_eq_none h]

/-- Characterization of the position-write loop: starting at loop index
`i`, component `c` of particle `j` ends up holding the argument destined
for flat index `3 j + c` when that index is written by the loop, and is
untouched otherwise. -/
theorem writeArgsAux_compAt (args : List ℚ) (ps : List Vec3) (i j c : Nat) (hc : c < 3) :
    compAt (writeArgsAux ps args i) j c =
      if i ≤ 3 * j + c ∧ 3 * j + c < i + args.length ∧ j < ps.length
      then args.getD (3 * j + c - i) 0
      else compAt ps j c := by
  induction args generalizing ps i with
  | nil =>
    simp only [writeArgsAux, List.length_nil, Nat.add_zero]
    rw [if_neg (by omega)]
  | cons a rest ih =>
    rw [writeArgsAux, ih]
    simp only [List.length_cons, length_modifyAt]
    have hmod3 : i % 3 < 3 := Nat.mod_lt _ (by norm_num)
    have hdiv : 3 * (i / 3) + i % 3 = i := Nat.div_add_mod i 3
    by_cases hj : j < ps.length
    · by_cases hji : j = i / 3 ∧ c = i % 3
      · obtain ⟨hj1, hc1⟩ := hji
        have hm : 3 * j + c = i := by omega
        rw [if_neg (by omega), if_pos ⟨by omega, by omega, hj⟩]
        rw [hj1, hc1, compAt_modifyAt_self _ _ _ _ (hj1 ▸ hj)]
        rw [comp_setComp_self, hdiv, Nat.sub_self]
        rfl
      · have hm : 3 * j + c ≠ i := fun hEq => hji ⟨by omega, by omega⟩
        have hcomp : compAt (modifyAt ps (i / 3) fun v => v.setComp (i % 3) a) j c
            = compAt ps j c := by
          by_cases hjd : j = i / 3
          · subst hjd
            rw [compAt_modifyAt_self _ _ _ _ hj]
            exact comp_setComp_ne _ _ _ _ hmod3 hc (by omega)
          · exact compAt_modifyAt_ne _ _ _ _ _ (fun hEq => hjd hEq.symm)
        rw [hcomp]
        by_cases hin : i + 1 ≤ 3 * j + c ∧ 3 * j + c < i + 1 + rest.length ∧ j < ps.length
        · rw [if_pos hin, if_pos (by omega)]
          rw [show 3 * j + c - i = (3 * j + c - (i + 1)) + 1 from by omega,
            List.getD_cons_succ]
        · rw [if_neg hin, if_neg (by omega)]
    · rw [if_neg (fun hcond => hj hcond.2.2), if_neg (fun hcond => hj hcond.2.2)]
      rw [compAt_of_length_le _ _ _ (by rw [length_modifyAt]; omega),
        compAt_of_length_le _ _ _ (by omega)]

/-- Evaluating `writeArgs` from loop index 0: flat index `3 j + c` below the
argument count receives that argument; every other component is
untouched. -/
theorem writeArgs_compAt (ps : List Vec3) (args : List ℚ) (j c : Nat) (hc : c < 3) :
    compAt (writeArgs ps args) j c =
      if 3 * j + c < args.length ∧ j < ps.length then args.getD (3 * j + c) 0
      else compAt ps j c := by
  rw [writeArgs, writeArgsAux_compAt _ _ _ _ _ hc]
  simp

theorem setPositions_push_positions (e : Evaluator) (args : List ℚ)
    (h : ¬(stdEqual args e.latestArguments && e.contextIsUnchanged) = true) :
    (e.setPositions args).positions = writeArgs e.positions (args.take e.numArgs) := by
  unfold Evaluator.setPositions
  rw [if_neg h]

theorem numParticles_eq_ceil (n : Nat) (hn : 1 ≤ n) : (n + 2) / 3 = ⌈(n : ℚ) / 3⌉₊ := by
  have hmod : (n + 2) % 3 < 3 := Nat.mod_lt _ (by norm_num)
  have hdm := Nat.div_add_mod (n + 2) 3
  have hk1 : 1 ≤ (n + 2) / 3 := by omega
  symm
  rw [Nat.ceil_eq_iff (by omega)]
  constructor
  · rw [lt_div_iff₀ (by norm_num : (0 : ℚ) < 3)]
    have h1 : 3 * ((n + 2) / 3) < n + 3 := by omega
    have hq : ((3 * ((n + 2) / 3) : Nat) : ℚ) < ((n + 3 : Nat) : ℚ) := by exact_mod_cast h1
    push_cast [Nat.cast_sub hk1] at hq ⊢
    linarith
  · rw [div_le_iff₀ (by norm_num : (0 : ℚ) < 3)]
    have h2 : n ≤ 3 * ((n + 2) / 3) := by omega
    have hq : ((n : Nat) : ℚ) ≤ ((3 * ((n + 2) / 3) : Nat) : ℚ) := by exact_mod_cast h2
    push_cast at hq ⊢
    linarith

/-- C5: with `argCount = n ≥ 1`, the constructor creates
`⌈n / 3⌉` synthetic particles; `setPositions` (here: the first call on a
fresh summation, with arguments not all zero so that the write is not
skipped) assigns argument `i` to component `i % 3` of particle `i / 3`,
and when `n` is not a multiple of 3 the unassigned component(s) of the
final particle remain zero. -/
theorem c5_particle_count_and_layout (n : Nat) (expr : String)
    (ops : List (String × ℚ)) (pts : List String) (args : List ℚ)
    (hn : 1 ≤ n) (hlen : args.length = n) (hne : args ≠ List.replicate n 0) :
    (CustomSummation.init n expr ops pts).force.numParticlesPerBond = ⌈(n : ℚ) / 3⌉₊ ∧
      (∀ i, i < n →
        compAt ((CustomSummation.init n expr ops pts).evaluator.setPositions args).positions
          (i / 3) (i % 3) = args.getD i 0) ∧
      (∀ j c, j < (CustomSummation.init n expr ops pts).force.numParticlesPerBond →
        c < 3 → n ≤ 3 * j + c →
        compAt ((CustomSummation.init n expr ops pts).evaluator.setPositions args).positions
          j c = 0) := by
  have hmod : (n + 2) % 3 < 3 := Nat.mod_lt _ (by norm_num)
  have hdm := Nat.div_add_mod (n + 2) 3
  have he : (CustomSummation.init n expr ops pts).evaluator =
      Evaluator.init n (CustomSummation.init n expr ops pts).force := rfl
  have hlatest : (CustomSummation.init n expr ops pts).evaluator.latestArguments =
      List.replicate n 0 := rfl
  have hpos : (CustomSummation.init n expr ops pts).evaluator.positions =
      List.replicate ((n + 2) / 3) Vec3.zero := rfl
  have hnum : (CustomSummation.init n expr ops pts).evaluator.numArgs = n := rfl
  have hcond : ¬(stdEqual args
      (CustomSummation.init n expr ops pts).evaluator.latestArguments &&
      (CustomSummation.init n expr ops pts).evaluator.contextIsUnchanged) = true := by
    rw [hlatest]
    simp only [Bool.and_eq_true, decide_eq_true_eq, stdEqual]
    intro hcc
    apply hne
    have := hcc.1
    rwa [hlen, List.take_replicate, Nat.min_self] at this
  have hw := setPositions_push_positions
    (CustomSummation.init n expr ops pts).evaluator args hcond
  rw [hnum, hpos] at hw
  have htake : args.take n = args := by
    rw [← hlen]
    exact List.take_length args
  rw [htake] at hw
  refine ⟨numParticles_eq_ceil n hn ▸ rfl, ?_, ?_⟩
  · intro i hi
    have hi3 : i % 3 < 3 := Nat.mod_lt _ (by norm_num)
    have hdi := Nat.div_add_mod i 3
    rw [hw, writeArgs_compAt _ _ _ _ hi3,
      if_pos ⟨by omega, by rw [List.length_replicate]; omega⟩, hdi]
  · intro j c hj hc hge
    rw [hw, writeArgs_compAt _ _ _ _ hc, if_neg (by omega)]
    rw [compAt]
    rw [List.getD_eq_getElem _ _ (by simpa using hj), List.getElem_replicate]
    exact comp_zero c

/-- Witness for C5 at `n = 4` (not a multiple of 3: two components of
the second particle stay zero), `args = {1, 2, 3, 4}`. -/
theorem c5_particle_count_and_layout_witness :
    (1 ≤ 4 ∧ [(1 : ℚ), 2, 3, 4].length = 4 ∧ [(1 : ℚ), 2, 3, 4] ≠ List.replicate 4 0) ∧
      (CustomSummation.init 4 "x1+y2" [] []).force.numParticlesPerBond = ⌈(4 : ℚ) / 3⌉₊ :=
  ⟨⟨by omega, by decide, by decide⟩,
   (c5_particle_count_and_layout 4 "x1+y2" [] [] [(1 : ℚ), 2, 3, 4]
      (by omega) (by decide) (by decide)).1⟩

/-- Witness for C4 at a freshly constructed evaluator (whose derivative
cache starts dirty, so the invariant holds vacuously), with a concrete
backend-force function. -/
theorem c4_evaluateDerivatives_spec_witness :
    derivCacheConsistent (fun _ => [⟨3, 4, 0⟩])
        (CustomSummation.init 2 "x1+y1" [] []).evaluator ∧
      ((CustomSummation.init 2 "x1+y1" [] []).evaluator.evaluateDerivatives
          (fun _ => [⟨3, 4, 0⟩]) [1, 2]).1.length =
        (CustomSummation.init 2 "x1+y1" [] []).evaluator.numArgs :=
  ⟨fun h => absurd h (by decide),
   (c4_evaluateDerivatives_spec (fun _ => [⟨3, 4, 0⟩])
      (CustomSummation.init 2 "x1+y1" [] []).evaluator [1, 2]
      (fun h => absurd h (by decide))).2.1⟩

/-- C6: with `n` the current term count and `v` of the declared per-term
parameter count, `addTerm(v)` returns `n`, appends the new term at index
`n` (so a subsequent `getTerm(n)` returns exactly `v`), makes the term
count `n + 1`, and no public operation ever removes a term (the term
count never decreases under any operation). -/
theorem c6_addTerm_appends (s : CustomSummation) (v : List ℚ)
    (hv : v.length = s.force.perBondParameterNames.length) :
    (s.addTerm v).1 = s.getNumTerms ∧
      (s.addTerm v).2.getNumTerms = s.getNumTerms + 1 ∧
      (s.addTerm v).2.getTerm (s.getNumTerms : Int) = .ok v ∧
      (∀ (t : CustomSummation) (op : Op) (E : Context → ℚ) (F : Context → List Vec3),
        t.getNumTerms ≤ (applyOp E F t op).getNumTerms) := by
  refine ⟨?_, ?_, ?_, ?_⟩
  · simp [CustomSummation.addTerm, CustomSummation.getNumTerms]
  · simp [CustomSummation.addTerm, CustomSummation.getNumTerms]
  · unfold CustomSummation.addTerm CustomSummation.getTerm CustomSummation.getNumTerms
    rw [if_neg (by simp)]
    simp only [Int.toNat_natCast]
    rw [show ((s.force.bonds ++ [(s.particles, v)]).getD s.force.bonds.length ([], [])) =
        (s.particles, v) from by
      rw [List.getD_eq_getElem _ _ (by simp)]
      rw [List.getElem_append_right (Nat.le_refl _)]
      simp]
  · intro t op E F
    cases op with
    | addTerm w => simp [applyOp, CustomSummation.addTerm, CustomSummation.getNumTerms]
    | setTerm i w =>
      simp only [applyOp]
      unfold CustomSummation.setTerm
      by_cases hcond : (i < 0 ∨ (t.force.bonds.length : Int) ≤ i)
      · rw [if_pos hcond]
      · rw [if_neg hcond]
        simp [CustomSummation.getNumTerms]
    | setParameter name w => exact Nat.le_refl _
    | evaluate args => exact Nat.le_refl _
    | evaluateDerivativeAt args which => exact Nat.le_refl _
    | evaluateDerivativeArr args derivOrder =>
      simp only [applyOp]
      unfold CustomSummation.evaluateDerivativeArr
      rcases scanDerivOrder derivOrder 0 0 none with _ | w
      · exact Nat.le_refl _
      · cases w with
        | none => exact Nat.le_refl _
        | some which => exact Nat.le_refl _

/-- Witness for C6: adding a one-parameter term to a fresh summation
declaring one per-term parameter. -/
theorem c6_addTerm_appends_witness :
    ([(2 : ℚ)].length =
        (CustomSummation.init 3 "k*x1" [] ["k"]).force.perBondParameterNames.length) ∧
      ((CustomSummation.init 3 "k*x1" [] ["k"]).addTerm [(2 : ℚ)]).1 =
        (CustomSummation.init 3 "k*x1" [] ["k"]).getNumTerms :=
  ⟨rfl, (c6_addTerm_appends (CustomSummation.init 3 "k*x1" [] ["k"]) [(2 : ℚ)] rfl).1⟩

/-- C7: for a valid term index `i` and a parameter vector of the declared
per-term length, `setTerm(i, v)` succeeds; afterwards `getTerm(i)`
returns `v`, `getTerm(j)` is unchanged for every `j ≠ i`, and the term
count is unchanged. -/
theorem c7_setTerm_frame (s : CustomSummation) (i : Nat) (v : List ℚ)
    (hi : i < s.getNumTerms) (hv : v.length = s.force.perBondParameterNames.length) :
    ∃ s', s.setTerm (i : Int) v = .ok s' ∧
      s'.getTerm (i : Int) = .ok v ∧
      (∀ j : Int, j ≠ (i : Int) → s'.getTerm j = s.getTerm j) ∧
      s'.getNumTerms = s.getNumTerms := by
  unfold CustomSummation.getNumTerms at hi
  have hok : s.setTerm (i : Int) v =
      .ok { s with
        force := { s.force with bonds := s.force.bonds.set i (s.particles, v) },
        evaluator := s.evaluator.update
          { s.force with bonds := s.force.bonds.set i (s.particles, v) } } := by
    unfold CustomSummation.setTerm
    rw [if_neg (by omega)]
    simp only [Int.toNat_natCast]
  refine ⟨_, hok, ?_, ?_, ?_⟩
  · unfold CustomSummation.getTerm
    rw [if_neg (by simp only [List.length_set]; omega)]
    simp only [Int.toNat_natCast]
    rw [show ((s.force.bonds.set i (s.particles, v)).getD i ([], [])) = (s.particles, v) from by
      rw [List.getD_eq_getElem _ _ (by simpa using hi), List.getElem_set_self]]
  · intro j hj
    unfold CustomSummation.getTerm
    by_cases hcond : (j < 0 ∨ (s.force.bonds.length : Int) ≤ j)
    · rw [if_pos (by simpa only [List.length_set] using hcond), if_pos hcond]
    · rw [if_neg (by simpa only [List.length_set] using hcond), if_neg hcond]
      have hji : j.toNat ≠ i := by
        intro hEq
        apply hj
        omega
      rw [show ((s.force.bonds.set i (s.particles, v)).getD j.toNat ([], [])) =
          s.force.bonds.getD j.toNat ([], []) from by
        simp [List.getD_eq_getElem?_getD, List.getElem?_set_ne (fun h => hji h.symm)]]
  · unfold CustomSummation.getNumTerms
    simp

/-- Witness for C7: replacing the single term of a one-term summation. -/
theorem c7_setTerm_frame_witness :
    (0 < ((CustomSummation.init 3 "k*x1" [] ["k"]).addTerm [(2 : ℚ)]).2.getNumTerms ∧
      [(7 : ℚ)].length =
        ((CustomSummation.init 3 "k*x1" [] ["k"]).addTerm
          [(2 : ℚ)]).2.force.perBondParameterNames.length) ∧
      ∃ s', ((CustomSummation.init 3 "k*x1" [] ["k"]).addTerm [(2 : ℚ)]).2.setTerm
          ((0 : Nat) : Int) [(7 : ℚ)] = .ok s' ∧
        s'.getTerm ((0 : Nat) : Int) = .ok [(7 : ℚ)] ∧
        (∀ j : Int, j ≠ ((0 : Nat) : Int) →
          s'.getTerm j =
            ((CustomSummation.init 3 "k*x1" [] ["k"]).addTerm [(2 : ℚ)]).2.getTerm j) ∧
        s'.getNumTerms =
          ((CustomSummation.init 3 "k*x1" [] ["k"]).addTerm [(2 : ℚ)]).2.getNumTerms :=
  ⟨⟨by decide, rfl⟩,
   c7_setTerm_frame ((CustomSummation.init 3 "k*x1" [] ["k"]).addTerm [(2 : ℚ)]).2 0 [(7 : ℚ)]
     (by decide) rfl⟩

/-! ### Helper lemmas for C9 and C10: parameter stores and `clone` -/

theorem lookupParam_updateParam_self (l : List (String × ℚ)) (n : String) (v : ℚ) :
    lookupParam (updateParam l n v) n = (lookupParam l n).map (fun _ => v) := by
  induction l with
  | nil => rfl
  | cons p rest ih =>
    unfold updateParam lookupParam at ih ⊢
    simp only [List.map_cons]
    by_cases h : p.1 = n
    · rw [if_pos h, List.find?_cons_of_pos _ (by simp),
        List.find?_cons_of_pos _ (by simpa using h)]
      rfl
    · rw [if_neg h, List.find?_cons_of_neg _ (by simpa using h),
        List.find?_cons_of_neg _ (by simpa using h)]
      exact ih

theorem updateParam_map_live (gps : List (String × ℚ)) (live : String → ℚ) (nm : String) :
    updateParam (gps.map (fun p => (p.1, live p.1))) nm (live nm)
      = gps.map (fun p => (p.1, live p.1)) := by
  unfold updateParam
  rw [List.map_map]
  apply List.map_congr_left
  intro p _
  by_cases h : p.1 = nm
  · simp [Function.comp, h]
  · simp [Function.comp, h]

theorem lookupParam_map_live (gps : List (String × ℚ)) (live : String → ℚ) (nm : String)
    (h : nm ∈ gps.map Prod.fst) :
    lookupParam (gps.map (fun p => (p.1, live p.1))) nm = some (live nm) := by
  induction gps with
  | nil => simp at h
  | cons p rest ih =>
    by_cases hp : p.1 = nm
    · simp only [lookupParam, List.map_cons]
      rw [List.find?_cons_of_pos _ (by simpa using hp)]
      simp [hp]
    · simp only [List.map_cons, List.mem_cons] at h
      rcases h with h | h
      · exact absurd h.symm hp
      · simp only [lookupParam, List.map_cons] at ih ⊢
        rw [List.find?_cons_of_neg _ (by simpa using hp)]
        exact ih h

theorem foldl_addTerm_spec (ts : List (List Nat × List ℚ)) (c : CustomSummation) :
    (ts.foldl (fun c b => (c.addTerm b.2).2) c).force.bonds
        = c.force.bonds ++ ts.map (fun b => (c.particles, b.2)) ∧
      (ts.foldl (fun c b => (c.addTerm b.2).2) c).particles = c.particles ∧
      (ts.foldl (fun c b => (c.addTerm b.2).2) c).force.globalParameters
        = c.force.globalParameters ∧
      (ts.foldl (fun c b => (c.addTerm b.2).2) c).evaluator.ctx.parameters
        = (if ts.isEmpty then c.evaluator.ctx.parameters else c.force.globalParameters) := by
  induction ts generalizing c with
  | nil => simp
  | cons b rest ih =>
    simp only [List.foldl_cons, List.map_cons, List.isEmpty_cons]
    obtain ⟨h1, h2, h3, h4⟩ := ih ((c.addTerm b.2).2)
    refine ⟨?_, ?_, ?_, ?_⟩
    · rw [h1]
      show (c.force.bonds ++ [(c.particles, b.2)]) ++ _ = _
      rw [List.append_assoc]
      rfl
    · rw [h2]; rfl
    · rw [h3]; rfl
    · rw [h4]
      by_cases hr : rest.isEmpty
      · rw [if_pos hr, if_neg (by simp)]
        rfl
      · rw [if_neg hr, if_neg (by simp)]
        rfl

theorem foldl_setParameter_spec (gps : List (String × ℚ)) (gps0 : List (String × ℚ))
    (live : String → ℚ) (c : CustomSummation)
    (hc : c.evaluator.ctx.parameters = gps0.map (fun p => (p.1, live p.1))) :
    (gps.foldl (fun c p => c.setParameter p.1 (live p.1)) c).evaluator.ctx.parameters
        = gps0.map (fun p => (p.1, live p.1)) ∧
      (gps.foldl (fun c p => c.setParameter p.1 (live p.1)) c).force = c.force ∧
      (gps.foldl (fun c p => c.setParameter p.1 (live p.1)) c).particles = c.particles := by
  induction gps generalizing c with
  | nil => exact ⟨hc, rfl, rfl⟩
  | cons p rest ih =>
    simp only [List.foldl_cons]
    have hstep : (c.setParameter p.1 (live p.1)).evaluator.ctx.parameters
        = gps0.map (fun q => (q.1, live q.1)) := by
      show updateParam c.evaluator.ctx.parameters p.1 (live p.1) = _
      rw [hc]
      exact updateParam_map_live gps0 live p.1
    obtain ⟨g1, g2, g3⟩ := ih (c.setParameter p.1 (live p.1)) hstep
    exact ⟨g1, g2, g3⟩

/-- C10 (implicit): `getOverallParameterDefaultValue(index)` returns the
live value of the parameter stored in the backend context: after
`setParameter` with the name of the parameter at a valid `index` and any
value `v`, it returns `v` — while the default declared at construction
is left untouched, so the result tracks the live value even when `v`
differs from the declared default. -/
theorem c10_default_getter_returns_live (s : CustomSummation) (i : Nat) (v : ℚ)
    (hi : i < s.force.globalParameters.length)
    (hsome : (lookupParam s.evaluator.ctx.parameters
        (s.force.globalParameters.getD i ("", 0)).1).isSome = true) :
    CustomSummation.getOverallParameterDefaultValue
        (s.setParameter (s.force.globalParameters.getD i ("", 0)).1 v) (i : Int) = .ok v ∧
      (s.setParameter
        (s.force.globalParameters.getD i ("", 0)).1 v).force.globalParameters =
        s.force.globalParameters := by
  refine ⟨?_, rfl⟩
  unfold CustomSummation.getOverallParameterDefaultValue
  rw [if_neg (by simp only [CustomSummation.setParameter]; omega)]
  simp only [CustomSummation.setParameter, Evaluator.setParameter, Evaluator.getParameter,
    Int.toNat_natCast]
  rw [lookupParam_updateParam_self]
  obtain ⟨w, hw⟩ := Option.isSome_iff_exists.mp hsome
  rw [hw]
  rfl

/-- Witness for C10: one declared overall parameter `a` with default 3;
after `setParameter("a", 9)` the "default value" getter returns 9. -/
theorem c10_default_getter_returns_live_witness :
    (0 < (CustomSummation.init 1 "a*x1" [("a", 3)] []).force.globalParameters.length ∧
      (lookupParam (CustomSummation.init 1 "a*x1" [("a", 3)] []).evaluator.ctx.parameters
        ((CustomSummation.init 1 "a*x1" [("a", 3)] []).force.globalParameters.getD 0
          ("", 0)).1).isSome = true) ∧
      ((CustomSummation.init 1 "a*x1" [("a", 3)] []).setParameter
          ((CustomSummation.init 1 "a*x1" [("a", 3)] []).force.globalParameters.getD 0
            ("", 0)).1 9).getOverallParameterDefaultValue ((0 : Nat) : Int) = .ok 9 :=
  ⟨⟨by decide, by decide⟩,
   (c10_default_getter_returns_live (CustomSummation.init 1 "a*x1" [("a", 3)] []) 0 9
      (by decide) (by decide)).1⟩

/-- C9: `clone` produces a summation whose term count matches, whose
`getTerm(i)` matches the source for every index (in-range indices return
the same stored vector; out-of-range indices fail identically), and
whose `getParameter(name)` returns the source's current LIVE value for
every declared overall-parameter name.  (In this pure embedding the
clone is a fresh value assembled only from read-back copies, so no
mutation of one side can affect the other — the deep-copy independence
of the C++ `clone`, which allocates its own force and evaluator.) -/
theorem c9_clone_matches (s : CustomSummation)
    (hwf : ∀ nm ∈ s.force.globalParameters.map Prod.fst,
      (lookupParam s.evaluator.ctx.parameters nm).isSome = true) :
    s.clone.getNumTerms = s.getNumTerms ∧
      (∀ i : Int, s.clone.getTerm i = s.getTerm i) ∧
      (∀ nm ∈ s.force.globalParameters.map Prod.fst,
        s.clone.getParameter nm = s.getParameter nm) := by
  unfold CustomSummation.clone
  simp only []
  obtain ⟨ha1, ha2, ha3, ha4⟩ := foldl_addTerm_spec s.force.bonds
    (CustomSummation.init s.numArgs s.force.expression
      (s.force.globalParameters.map
        (fun p => (p.1, (s.evaluator.getParameter p.1).getD 0)))
      s.force.perBondParameterNames)
  have hinit_params : (CustomSummation.init s.numArgs s.force.expression
      (s.force.globalParameters.map
        (fun p => (p.1, (s.evaluator.getParameter p.1).getD 0)))
      s.force.perBondParameterNames).evaluator.ctx.parameters =
      s.force.globalParameters.map
        (fun p => (p.1, (s.evaluator.getParameter p.1).getD 0)) := rfl
  have hinit_gp : (CustomSummation.init s.numArgs s.force.expression
      (s.force.globalParameters.map
        (fun p => (p.1, (s.evaluator.getParameter p.1).getD 0)))
      s.force.perBondParameterNames).force.globalParameters =
      s.force.globalParameters.map
        (fun p => (p.1, (s.evaluator.getParameter p.1).getD 0)) := rfl
  have hmid : (s.force.bonds.foldl (fun c b => (c.addTerm b.2).2)
      (CustomSummation.init s.numArgs s.force.expression
        (s.force.globalParameters.map
          (fun p => (p.1, (s.evaluator.getParameter p.1).getD 0)))
        s.force.perBondParameterNames)).evaluator.ctx.parameters =
      s.force.globalParameters.map
        (fun p => (p.1, (s.evaluator.getParameter p.1).getD 0)) := by
    rw [ha4]
    by_cases hb : s.force.bonds.isEmpty
    · rw [if_pos hb, hinit_params]
    · rw [if_neg hb, hinit_gp]
  obtain ⟨hs1, hs2, hs3⟩ := foldl_setParameter_spec s.force.globalParameters
    s.force.globalParameters (fun nm => (s.evaluator.getParameter nm).getD 0) _ hmid
  have hbonds : (s.force.globalParameters.foldl
      (fun c p => c.setParameter p.1 ((s.evaluator.getParameter p.1).getD 0))
      (s.force.bonds.foldl (fun c b => (c.addTerm b.2).2)
        (CustomSummation.init s.numArgs s.force.expression
          (s.force.globalParameters.map
            (fun p => (p.1, (s.evaluator.getParameter p.1).getD 0)))
          s.force.perBondParameterNames))).force.bonds =
      s.force.bonds.map (fun b =>
        ((CustomSummation.init s.numArgs s.force.expression
          (s.force.globalParameters.map
            (fun p => (p.1, (s.evaluator.getParameter p.1).getD 0)))
          s.force.perBondParameterNames).particles, b.2)) := by
    rw [hs2, ha1]
    rfl
  refine ⟨?_, ?_, ?_⟩
  · unfold CustomSummation.getNumTerms
    rw [hbonds, List.length_map]
  · intro i
    unfold CustomSummation.getTerm
    rw [hbonds, List.length_map]
    by_cases hcond : (i < 0 ∨ (s.force.bonds.length : Int) ≤ i)
    · rw [if_pos hcond, if_pos hcond]
    · rw [if_neg hcond, if_neg hcond]
      have hlt : i.toNat < s.force.bonds.length := by omega
      congr 1
      rw [List.getD_eq_getElem _ _ (by simpa using hlt),
        List.getD_eq_getElem _ _ (by simpa using hlt), List.getElem_map]
  · intro nm hnm
    unfold Evaluator.getParameter at hs1
    unfold CustomSummation.getParameter Evaluator.getParameter
    rw [hs1]
    have hlive := lookupParam_map_live s.force.globalParameters
      (fun x => (lookupParam s.evaluator.ctx.parameters x).getD 0) nm hnm
    rw [hlive]
    obtain ⟨w, hw⟩ := Option.isSome_iff_exists.mp (hwf nm hnm)
    simp [hw]

/-- Witness for C9 on a two-term summation whose live parameter value
has been changed away from its declared default before cloning. -/
theorem c9_clone_matches_witness :
    (∀ nm ∈ (((CustomSummation.init 1 "a*x1" [("a", 3)] ["k"]).addTerm [(2 : ℚ)]).2.setParameter
        "a" 9).force.globalParameters.map Prod.fst,
      (lookupParam (((CustomSummation.init 1 "a*x1" [("a", 3)] ["k"]).addTerm
          [(2 : ℚ)]).2.setParameter "a" 9).evaluator.ctx.parameters nm).isSome = true) ∧
      (∀ nm ∈ (((CustomSummation.init 1 "a*x1" [("a", 3)] ["k"]).addTerm
          [(2 : ℚ)]).2.setParameter "a" 9).force.globalParameters.map Prod.fst,
        (((CustomSummation.init 1 "a*x1" [("a", 3)] ["k"]).addTerm [(2 : ℚ)]).2.setParameter
            "a" 9).clone.getParameter nm =
          (((CustomSummation.init 1 "a*x1" [("a", 3)] ["k"]).addTerm [(2 : ℚ)]).2.setParameter
            "a" 9).getParameter nm) :=
  ⟨by decide,
   (c9_clone_matches (((CustomSummation.init 1 "a*x1" [("a", 3)] ["k"]).addTerm
      [(2 : ℚ)]).2.setParameter "a" 9) (by decide)).2.2⟩

end CustomSummationModel
